import Mathlib

/-!
# The View of the SmartBFT consensus library (`internal/bft/view.go`)

A shallow embedding of `view.go`: the vote sets, the inbound queue
(`HandleMessage`), the routing of inbound messages (`processMsg`,
`handlePrePrepare`), the pre-prepare step (`processPrePrepare`, `doStep`), the
loop `Run` and `Abort`; and of `Consensus.BroadcastConsensus` of
`pkg/consensus/consensus.go`.

Conventions of the embedding.

* `uint64` values are natural numbers; the only arithmetic in the file is
  `currentProposalSeq + 1`, which is taken modulo `2 ^ 64`.
* A buffered channel is its capacity and the list of queued elements, oldest
  first. A call that would park the calling goroutine on a channel operation
  ends with status `blocked`, in the state reached at that point.
* The collaborators of a view (`Logger`, `FailureDetector`, `Sync`, `Comm`)
  are interfaces; the calls made on them are collected, oldest first, in the
  `calls` of an `Outcome`.
* `view.go` never creates `incMsgs`, `proposals` and `abortChan`; they are
  taken as created by whoever builds the view. The `votes` channel of a vote
  set is created nowhere in `view.go` either, and `setupVotes` leaves it nil,
  so it is modelled as an optional channel.
-/

namespace SmartBFT

/-! ## Messages -/

/-- A byte slice. -/
abbrev Bytes := List Nat

/-- The number of values of a `uint64`. -/
def uint64Mod : Nat := 2 ^ 64

/-- The proposal of `bft.Proposal` and of `protos.Proposal`: both carry the
same four fields. -/
structure Proposal where
  Payload : Bytes
  Header : Bytes
  Metadata : Bytes
  VerificationSequence : Nat
deriving DecidableEq, Repr

/-- The message `protos.PrePrepare`; `Proposal` is a pointer and may be nil. -/
structure PrePrepare where
  View : Nat
  Seq : Nat
  Proposal : Option Proposal
deriving DecidableEq, Repr

/-- The message `protos.Prepare`. -/
structure Prepare where
  View : Nat
  Seq : Nat
  Digest : String
deriving DecidableEq, Repr

/-- The signature carried by a commit. -/
structure Signature where
  Signer : Nat
  Value : Bytes
  Msg : Bytes
deriving DecidableEq, Repr

/-- The message `protos.Commit`. -/
structure Commit where
  View : Nat
  Seq : Nat
  Digest : String
  Signature : Signature
deriving DecidableEq, Repr

/-- The message `protos.Message`, by its content. `other viewNum seq` stands for
every message whose content is none of the three kinds the view handles (a view
change message, a heartbeat, an empty message); its two numbers are what
`bft.ViewNumber` and `bft.ProposalSequence` report for it. -/
inductive Message where
  | prePrepare (pp : PrePrepare)
  | prepare (prp : Prepare)
  | commit (cmt : Commit)
  | other (viewNum : Nat) (seq : Nat)
deriving DecidableEq, Repr

/-- The getter `m.GetPrePrepare()`. -/
def Message.GetPrePrepare : Message → Option PrePrepare
  | .prePrepare pp => some pp
  | _ => none

/-- The getter `m.GetPrepare()`. -/
def Message.GetPrepare : Message → Option Prepare
  | .prepare prp => some prp
  | _ => none

/-- The getter `m.GetCommit()`. -/
def Message.GetCommit : Message → Option Commit
  | .commit cmt => some cmt
  | _ => none

/-- Modelled from the spec: `bft.ViewNumber` is declared in package `pkg/bft`,
which is not among the sources. The spec says that inbound messages carry
`(viewNum, proposalSeq)`: the view number of a message is the `View` of its
pre-prepare, prepare or commit. -/
def ViewNumber : Message → Nat
  | .prePrepare pp => pp.View
  | .prepare prp => prp.View
  | .commit cmt => cmt.View
  | .other viewNum _ => viewNum

/-- Modelled from the spec: `bft.ProposalSequence` is declared in package
`pkg/bft`, which is not among the sources. The spec says that inbound messages
carry `(viewNum, proposalSeq)`: the sequence of a message is the `Seq` of its
pre-prepare, prepare or commit. -/
def ProposalSequence : Message → Nat
  | .prePrepare pp => pp.Seq
  | .prepare prp => prp.Seq
  | .commit cmt => cmt.Seq
  | .other _ seq => seq

/-! ## Channels -/

/-- A created (non-nil) buffered channel: its capacity and the queued elements,
oldest first. -/
structure Chan (α : Type) where
  cap : Nat
  buf : List α
deriving DecidableEq, Repr

/-- The builtin `len(c)`. -/
def Chan.len {α : Type} (c : Chan α) : Nat := c.buf.length

/-- A send on the channel can proceed at once: there is room in the buffer. -/
def Chan.canSend {α : Type} (c : Chan α) : Bool := decide (c.buf.length < c.cap)

/-- The channel after `c <- x` has proceeded. -/
def Chan.send {α : Type} (c : Chan α) (x : α) : Chan α :=
  { c with buf := c.buf ++ [x] }

/-- The receive `<-c`: the oldest element and the channel without it, or `none`
when the buffer is empty and the receive cannot proceed. -/
def Chan.recv {α : Type} (c : Chan α) : Option (α × Chan α) :=
  match c.buf with
  | [] => none
  | x :: rest => some (x, { c with buf := rest })

/-- The state of a created `chan struct{}` on which nothing is ever sent, such
as `abortChan`. -/
inductive SignalChan where
  | isOpen
  | isClosed
deriving DecidableEq, Repr

/-- A receive `<-c` on a signal channel can proceed exactly when the channel is
closed. -/
def SignalChan.recvReady : SignalChan → Bool
  | .isOpen => false
  | .isClosed => true

/-- The builtin `close(c)`: closing a closed channel panics (`none`). -/
def SignalChan.close : SignalChan → Option SignalChan
  | .isOpen => some .isClosed
  | .isClosed => none

/-- How a call ends: it returns, it parks the goroutine on a channel operation
that cannot proceed, or it panics. -/
inductive Status where
  | returned
  | blocked
  | panicked
deriving DecidableEq, Repr

/-! ## Vote sets -/

/-- The struct `voteSet`. `voted` is the key set of the map
`map[uint64]struct{}`; `votes` is `none` for a nil channel. -/
structure voteSet where
  validVote : Message → Bool
  voted : Finset Nat
  votes : Option (Chan Message)

/-- The loop `for len(vs.votes) > 0 { <- vs.votes }` on the queued elements:
each round receives the oldest one. -/
def drain {α : Type} : List α → List α
  | [] => []
  | _ :: rest => drain rest

/-- The method `voteSet.clear`. The length of a nil channel is 0, so the loop
does not run for it. -/
def voteSet.clear (vs : voteSet) : voteSet :=
  { vs with
    votes := vs.votes.map (fun c => { c with buf := drain c.buf })
    voted := ∅ }

/-- The method `voteSet.registerVote`. The voter is recorded before the send on
`votes`; the send parks the goroutine when the channel is nil or full. -/
def voteSet.registerVote (vs : voteSet) (voter : Nat) (message : Message) :
    voteSet × Status :=
  if !vs.validVote message then
    (vs, .returned)
  else if voter ∈ vs.voted then
    -- Received double vote
    (vs, .returned)
  else
    let marked : voteSet := { vs with voted := insert voter vs.voted }
    match vs.votes with
    | none => (marked, .blocked)
    | some c =>
      if c.canSend then
        ({ marked with votes := some (c.send message) }, .returned)
      else
        (marked, .blocked)

/-- The queued votes of a vote set; a nil channel holds none. -/
def voteSet.queued (vs : voteSet) : List Message :=
  match vs.votes with
  | none => []
  | some c => c.buf

/-- A sequence of `registerVote` calls made one after the other on a vote set,
each given as `(voter, message)`. The run ends at the first call that does not
return. The result is the vote set reached, the status of the last call made,
and the calls that put their message into `votes`, in order. -/
def registerVotes : voteSet → List (Nat × Message) →
    voteSet × Status × List (Nat × Message)
  | vs, [] => (vs, .returned, [])
  | vs, (voter, message) :: rest =>
    let r := vs.registerVote voter message
    match r.2 with
    | .returned =>
      let tail := registerVotes r.1 rest
      if r.1.queued = vs.queued then tail
      else (tail.1, tail.2.1, (voter, message) :: tail.2.2)
    | st => (r.1, st, [])

/-! ## The view -/

/-- A Go `error`; `none` is the nil error. -/
abbrev error := Option String

/-- A call made on one of the collaborators of the view: `Logger.Warningf`,
`FailureDetector.Complain`, `Sync.SyncIfNeeded`, `Comm.Broadcast` and
`Decider.Decide`. -/
inductive Call where
  | Warningf
  | Complain
  | SyncIfNeeded
  | Broadcast (m : Message)
  | Decide (proposal : Proposal) (signatures : List Signature)
deriving DecidableEq, Repr

/-- An inbound message with its sender, the struct `incMsg`. -/
structure incMsg where
  Message : Message
  sender : Nat
deriving DecidableEq, Repr

/-- The struct `View`. The interface fields `Decider`, `FailureDetector`,
`Sync`, `Logger` and `Comm` appear through the calls made on them (see
`Outcome`); `Verifier` is its method `VerifyProposal`; `ProposalSequence` is
the value behind the pointer. The four vote sets are those installed by
`setupVotes`, which `ProcessMessages` runs before it processes any message. -/
structure View where
  -- Configuration
  ClusterSize : Nat
  LeaderID : Nat
  Number : Nat
  VerifyProposal : Proposal → Bytes → error
  ProposalSequence : Nat
  PrevHeader : Bytes
  -- Runtime
  incMsgs : Chan incMsg
  proposals : Chan Proposal
  -- Current proposal
  prepares : voteSet
  commits : voteSet
  -- Next proposal
  nextPrepares : voteSet
  nextCommits : voteSet
  abortChan : SignalChan

/-- The result of a method of the view: the view it leaves, the calls it made
on the collaborators (oldest first) and how it ended. -/
structure Outcome where
  view : View
  calls : List Call
  status : Status

/-- The closure `acceptPrepares` of `setupVotes`. -/
def acceptPrepares (message : Message) : Bool :=
  message.GetPrepare.isSome

/-- The closure `acceptCommits` of `setupVotes`. -/
def acceptCommits (message : Message) : Bool :=
  message.GetCommit.isSome

/-- The vote set `&voteSet{validVote: validVote}`: the map and the channel are
nil; reading a nil map finds no key. -/
def voteSet.new (validVote : Message → Bool) : voteSet :=
  { validVote := validVote, voted := ∅, votes := none }

/-- The method `View.setupVotes`. -/
def View.setupVotes (v : View) : View :=
  { v with
    prepares := (voteSet.new acceptPrepares).clear
    nextPrepares := (voteSet.new acceptPrepares).clear
    commits := (voteSet.new acceptCommits).clear
    nextCommits := (voteSet.new acceptCommits).clear }

/-- The method `View.Abort`: a `select` that returns when the abort channel is
already closed and closes it otherwise. -/
def View.Abort (v : View) : Outcome :=
  if v.abortChan.recvReady then
    -- already aborted
    ⟨v, [], .returned⟩
  else
    match v.abortChan.close with
    | some c => ⟨{ v with abortChan := c }, [], .returned⟩
    | none => ⟨v, [], .panicked⟩

/-- The method `View.handlePrePrepare`. The `select` with a `default` case
sends the proposal when the channel has room and logs a warning otherwise. -/
def View.handlePrePrepare (v : View) (sender : Nat) (pp : PrePrepare) : Outcome :=
  match pp.Proposal with
  | none => ⟨v, [.Warningf], .returned⟩
  | some prop =>
    if sender ≠ v.LeaderID then
      ⟨v, [.Warningf], .returned⟩
    else
      let proposal : Proposal :=
        { VerificationSequence := prop.VerificationSequence
          Metadata := prop.Metadata
          Payload := prop.Payload
          Header := prop.Header }
      if v.proposals.canSend then
        ⟨{ v with proposals := v.proposals.send proposal }, [], .returned⟩
      else
        -- A proposal is currently being handled.
        ⟨v, [.Warningf], .returned⟩

/-- The view after a `registerVote` on its `prepares`. -/
def View.withPrepares (v : View) (r : voteSet × Status) (calls : List Call) : Outcome :=
  ⟨{ v with prepares := r.1 }, calls, r.2⟩

/-- The view after a `registerVote` on its `nextPrepares`. -/
def View.withNextPrepares (v : View) (r : voteSet × Status) (calls : List Call) : Outcome :=
  ⟨{ v with nextPrepares := r.1 }, calls, r.2⟩

/-- The view after a `registerVote` on its `nextCommits`. -/
def View.withNextCommits (v : View) (r : voteSet × Status) (calls : List Call) : Outcome :=
  ⟨{ v with nextCommits := r.1 }, calls, r.2⟩

/-- The dispatch at the end of `View.processMsg`, after the checks of the
sequence and of the view number; `calls` are the calls made by the checks. In
the source both branches for a commit register the vote in `nextCommits`. -/
def View.dispatch (v : View) (sender : Nat) (m : Message) (msgForNextProposal : Bool)
    (calls : List Call) : Outcome :=
  match m.GetPrePrepare with
  | some pp =>
    let r := v.handlePrePrepare sender pp
    ⟨r.view, calls ++ r.calls, r.status⟩
  | none =>
    match m.GetPrepare with
    | some _ =>
      if msgForNextProposal then
        v.withNextPrepares (v.nextPrepares.registerVote sender m) calls
      else
        v.withPrepares (v.prepares.registerVote sender m) calls
    | none =>
      match m.GetCommit with
      | some _ =>
        if msgForNextProposal then
          v.withNextCommits (v.nextCommits.registerVote sender m) calls
        else
          v.withNextCommits (v.nextCommits.registerVote sender m) calls
      | none => ⟨v, calls, .returned⟩

/-- The method `View.processMsg`. -/
def View.processMsg (v : View) (sender : Nat) (m : Message) : Outcome :=
  let msgViewNum := SmartBFT.ViewNumber m
  let currentProposalSeq := v.ProposalSequence
  let msgProposalSeq := SmartBFT.ProposalSequence m
  -- This message is either for this proposal or the next one
  if msgProposalSeq ≠ currentProposalSeq ∧
      msgProposalSeq ≠ (currentProposalSeq + 1) % uint64Mod then
    ⟨v, [.Warningf], .returned⟩
  else
    let msgForNextProposal : Bool :=
      decide (msgProposalSeq = (currentProposalSeq + 1) % uint64Mod)
    if msgViewNum ≠ v.Number then
      if sender ≠ v.LeaderID then
        ⟨v, [.Warningf], .returned⟩
      else
        -- Else, we got a message with a wrong view from the leader.
        v.dispatch sender m msgForNextProposal [.Warningf, .Complain]
    else
      v.dispatch sender m msgForNextProposal []

/-- The method `View.processPrePrepare`. The receive on `proposals` parks the
goroutine while the channel is empty. `digest` is the method `Digest` of
`bft.Proposal`, which is declared outside `view.go`. -/
def View.processPrePrepare (v : View) (digest : Proposal → String)
    (proposalSequence : Nat) : Outcome :=
  match v.proposals.recv with
  | none => ⟨v, [], .blocked⟩
  | some (proposal, rest) =>
    let taken : View := { v with proposals := rest }
    match v.VerifyProposal proposal v.PrevHeader with
    | some _ =>
      let a := taken.Abort
      ⟨a.view, [.Warningf, .Complain, .SyncIfNeeded] ++ a.calls, a.status⟩
    | none =>
      let msg : Message :=
        .prepare { Seq := proposalSequence, View := v.Number, Digest := digest proposal }
      ⟨taken, [.Broadcast msg], .returned⟩

/-- A call followed by another: when the first returns, `next` runs on the view
it left and the calls are joined; when it blocks or panics, nothing follows. -/
def Outcome.andThen (r : Outcome) (next : View → Outcome) : Outcome :=
  match r.status with
  | .returned =>
    let s := next r.view
    ⟨s.view, r.calls ++ s.calls, s.status⟩
  | _ => r

/-- The method `View.processPrepares`, whose body is empty. -/
def View.processPrepares (v : View) : Outcome := ⟨v, [], .returned⟩

/-- The method `View.processCommits`, whose body is empty. -/
def View.processCommits (v : View) : Outcome := ⟨v, [], .returned⟩

/-- The method `View.maybeDecide`, whose body is empty. -/
def View.maybeDecide (v : View) : Outcome := ⟨v, [], .returned⟩

/-- The method `View.Propose`, whose body is empty. -/
def View.Propose (v : View) : Outcome := ⟨v, [], .returned⟩

/-- The method `View.doStep`: it reads the proposal sequence and runs the four
phases in turn. -/
def View.doStep (v : View) (digest : Proposal → String) : Outcome :=
  let proposalSequence := v.ProposalSequence
  (((v.processPrePrepare digest proposalSequence).andThen
    View.processPrepares).andThen View.processCommits).andThen View.maybeDecide

/-- The method `View.Run`, for at most `fuel` rounds of its loop. A round
returns when the abort channel is closed (a `select` takes its `default` case
only when no other case can proceed) and runs `doStep` otherwise. The result is
`none` when the loop is still running after `fuel` rounds. -/
def View.RunFor (digest : Proposal → String) : Nat → View → Option Outcome
  | 0, _ => none
  | fuel + 1, v =>
    if v.abortChan.recvReady then
      some ⟨v, [], .returned⟩
    else
      let r := v.doStep digest
      match r.status with
      | .returned =>
        (View.RunFor digest fuel r.view).map
          (fun s => ⟨s.view, r.calls ++ s.calls, s.status⟩)
      | _ => some r

/-- The method `View.HandleMessage`: a `select` between a receive on the abort
channel and a send on `incMsgs`, without a `default` case. The result lists
what the call may do: each case that can proceed may be the one chosen, and
when none can the goroutine is parked. -/
def View.HandleMessage (v : View) (sender : Nat) (m : Message) : List Outcome :=
  let msg : incMsg := { sender := sender, Message := m }
  let onAbort : List Outcome :=
    if v.abortChan.recvReady then [⟨v, [], .returned⟩] else []
  let onSend : List Outcome :=
    if v.incMsgs.canSend then
      [⟨{ v with incMsgs := v.incMsgs.send msg }, [], .returned⟩]
    else []
  match onAbort ++ onSend with
  | [] => [⟨v, [], .blocked⟩]
  | ready => ready

/-! ## Broadcast of the consensus -/

/-- The method `Consensus.BroadcastConsensus`, given the identifier `SelfID` of
the node and the list `nodes` returned by `Comm.Nodes()`: the calls
`Comm.SendConsensus(node, m)` it makes, in order. The message is not inspected,
so its type is left open. -/
def BroadcastConsensus {μ : Type} (SelfID : Nat) (nodes : List Nat) (m : μ) :
    List (Nat × μ) :=
  match nodes with
  | [] => []
  | node :: rest =>
    -- Do not send to yourself
    if SelfID = node then
      BroadcastConsensus SelfID rest m
    else
      (node, m) :: BroadcastConsensus SelfID rest m

/-! ## Concrete views and messages -/

/-- A view of a cluster of four nodes with leader 1, in view 0 at sequence 0,
whose verifier rejects the proposals with an empty payload, with the vote sets
as `setupVotes` leaves them. -/
def exampleView : View :=
  View.setupVotes
    { ClusterSize := 4
      LeaderID := 1
      Number := 0
      VerifyProposal := fun proposal _ =>
        if proposal.Payload = [] then some "empty payload" else none
      ProposalSequence := 0
      PrevHeader := []
      incMsgs := { cap := 40, buf := [] }
      proposals := { cap := 1, buf := [] }
      prepares := voteSet.new acceptPrepares
      commits := voteSet.new acceptCommits
      nextPrepares := voteSet.new acceptPrepares
      nextCommits := voteSet.new acceptCommits
      abortChan := .isOpen }

/-- The vote set `vs` with a created `votes` channel of capacity 4. -/
def voteSet.buffered (vs : voteSet) : voteSet :=
  { vs with votes := some { cap := 4, buf := [] } }

/-- The view `exampleView` with a created `votes` channel in each vote set. -/
def bufferedView : View :=
  { exampleView with
    prepares := exampleView.prepares.buffered
    commits := exampleView.commits.buffered
    nextPrepares := exampleView.nextPrepares.buffered
    nextCommits := exampleView.nextCommits.buffered }

/-- A vote set that accepts prepares, has room for four votes and has recorded
voter 1. -/
def bufferedPrepares : voteSet :=
  { validVote := acceptPrepares, voted := {1}, votes := some { cap := 4, buf := [] } }

/-- A prepare of view 0 for sequence 0. -/
def prepareA : Message := .prepare { View := 0, Seq := 0, Digest := "a" }

/-- Another prepare of view 0 for sequence 0. -/
def prepareB : Message := .prepare { View := 0, Seq := 0, Digest := "b" }

/-- A prepare of view 0 for sequence 1. -/
def prepareNext : Message := .prepare { View := 0, Seq := 1, Digest := "a" }

/-- A prepare of view 5 for sequence 0. -/
def prepareOtherView : Message := .prepare { View := 5, Seq := 0, Digest := "a" }

/-- A prepare of view 5 for sequence 7. -/
def prepareFarAhead : Message := .prepare { View := 5, Seq := 7, Digest := "a" }

/-- A commit of view 0 for sequence 0. -/
def commitCurrent : Message :=
  .commit { View := 0, Seq := 0, Digest := "a",
            Signature := { Signer := 2, Value := [], Msg := [] } }

/-- A commit of view 0 for sequence 1. -/
def commitNext : Message :=
  .commit { View := 0, Seq := 1, Digest := "a",
            Signature := { Signer := 2, Value := [], Msg := [] } }

/-- A proposal with a payload. -/
def goodProposal : Proposal :=
  { Payload := [1, 2], Header := [3], Metadata := [4], VerificationSequence := 5 }

/-- A second proposal with a payload. -/
def laterProposal : Proposal :=
  { Payload := [6], Header := [7], Metadata := [8], VerificationSequence := 5 }

/-- A proposal with an empty payload, which the verifier of `exampleView`
rejects. -/
def badProposal : Proposal :=
  { Payload := [], Header := [3], Metadata := [4], VerificationSequence := 5 }

/-- The view `exampleView` with `goodProposal` waiting in `proposals`. -/
def viewHoldingProposal : View :=
  { exampleView with proposals := { cap := 1, buf := [goodProposal] } }

/-- The view `exampleView` with `badProposal` waiting in `proposals`. -/
def viewHoldingBadProposal : View :=
  { exampleView with proposals := { cap := 1, buf := [badProposal] } }

/-- A digest for the concrete proposals: the payload size as text. -/
def exampleDigest (proposal : Proposal) : String :=
  toString proposal.Payload.length

/-- The view `exampleView` after `Abort`, with its empty proposals channel. -/
def abortedView : View :=
  { exampleView with abortChan := .isClosed }

/-- The view `viewHoldingProposal` after `Abort`: aborted while a proposal
waits in the channel. -/
def abortedViewHoldingProposal : View :=
  { viewHoldingProposal with abortChan := .isClosed }

/-- The view `exampleView` with an inbound queue of capacity 2 that holds two
messages, `prepareA` from node 2 the oldest. -/
def viewWithFullQueue : View :=
  { exampleView with
    incMsgs := { cap := 2, buf := [{ Message := prepareA, sender := 2 },
                                   { Message := prepareB, sender := 3 }] } }

/-- A pre-prepare of view 0 for sequence 0 with `goodProposal`. -/
def prePrepareCurrent : PrePrepare :=
  { View := 0, Seq := 0, Proposal := some goodProposal }

/-- A pre-prepare of view 0 for sequence 1 with `goodProposal`. -/
def prePrepareNext : PrePrepare :=
  { View := 0, Seq := 1, Proposal := some goodProposal }

/-- A vote set that accepts prepares, has recorded voters 1 and 2 and holds
their two votes in a channel of capacity 4. -/
def usedPrepares : voteSet :=
  { validVote := acceptPrepares, voted := {1, 2},
    votes := some { cap := 4, buf := [prepareA, prepareB] } }

/-! ## Vote sets: one vote per voter -/

/-- One `registerVote` call either leaves the vote set as it is, or records a
voter that was not recorded and then blocks or queues the message. -/
theorem registerVote_cases (vs : voteSet) (voter : Nat) (message : Message) :
    vs.registerVote voter message = (vs, .returned) ∨
    (voter ∉ vs.voted ∧
      (vs.registerVote voter message).1.voted = insert voter vs.voted ∧
      (((vs.registerVote voter message).2 = .blocked ∧
          (vs.registerVote voter message).1.queued = vs.queued) ∨
        ((vs.registerVote voter message).2 = .returned ∧
          (vs.registerVote voter message).1.queued = vs.queued ++ [message]))) := by
  unfold voteSet.registerVote
  by_cases hv : vs.validVote message = true
  · by_cases hm : voter ∈ vs.voted
    · left; simp [hv, hm]
    · right
      refine ⟨hm, ?_⟩
      cases hc : vs.votes with
      | none => simp [hv, hm, voteSet.queued, hc]
      | some c =>
        by_cases hs : c.canSend = true
        · simp [hv, hm, voteSet.queued, hc, hs, Chan.send]
        · simp [hv, hm, voteSet.queued, hc, hs]
  · left; simp [hv]

/-- The voters whose message a run of `registerVote` calls has queued were not
recorded before the run, and no voter occurs twice among them; the messages
queued are theirs, in order. -/
theorem registerVotes_spec (calls : List (Nat × Message)) :
    ∀ vs : voteSet,
      ((registerVotes vs calls).2.2.map Prod.fst).Nodup ∧
      (∀ voter ∈ (registerVotes vs calls).2.2.map Prod.fst, voter ∉ vs.voted) ∧
      (registerVotes vs calls).2.2.Sublist calls ∧
      (registerVotes vs calls).1.queued =
        vs.queued ++ (registerVotes vs calls).2.2.map Prod.snd := by
  induction calls with
  | nil => intro vs; simp [registerVotes]
  | cons call rest ih =>
    intro vs
    obtain ⟨voter, message⟩ := call
    rcases registerVote_cases vs voter message with h | ⟨hnot, hvoted, h | h⟩
    · obtain ⟨ih1, ih2, ih3, ih4⟩ := ih vs
      simp only [registerVotes, h, if_true]
      exact ⟨ih1, ih2, ih3.trans (List.sublist_cons_self _ _), ih4⟩
    · obtain ⟨hst, hq⟩ := h
      simp [registerVotes, hst, hq]
    · obtain ⟨hst, hq⟩ := h
      obtain ⟨ih1, ih2, ih3, ih4⟩ := ih (vs.registerVote voter message).1
      have hne : ¬ (vs.registerVote voter message).1.queued = vs.queued := by
        rw [hq]; simp
      simp only [registerVotes, hst, hne, if_false]
      refine ⟨?_, ?_, ?_, ?_⟩
      · simp only [List.map_cons, List.nodup_cons]
        refine ⟨fun hmem => ?_, ih1⟩
        exact ih2 voter hmem (by rw [hvoted]; exact Finset.mem_insert_self _ _)
      · intro w hw
        simp only [List.map_cons, List.mem_cons] at hw
        rcases hw with rfl | hw
        · exact hnot
        · intro hin
          exact ih2 w hw (by rw [hvoted]; exact Finset.mem_insert_of_mem hin)
      · exact ih3.cons₂ _
      · rw [ih4, hq]; simp

/-- C1. Vote dedup. In every run of `registerVote` calls on a vote set (no
`clear` in between), the calls that put a message into `votes` come from
pairwise different voters, none of them recorded in `voted` before the run, and
the messages queued by the run are exactly theirs; and a `registerVote` call
for a voter already recorded in `voted` returns and leaves the vote set (the
`voted` map and the `votes` buffer) as it was, whatever the message. -/
theorem registerVote_dedup (vs : voteSet) (calls : List (Nat × Message)) :
    ((registerVotes vs calls).2.2.map Prod.fst).Nodup ∧
    (∀ voter ∈ (registerVotes vs calls).2.2.map Prod.fst, voter ∉ vs.voted) ∧
    (registerVotes vs calls).2.2.Sublist calls ∧
    (registerVotes vs calls).1.queued =
      vs.queued ++ (registerVotes vs calls).2.2.map Prod.snd ∧
    (∀ (voter : Nat) (message : Message), voter ∈ vs.voted →
      vs.registerVote voter message = (vs, .returned)) := by
  obtain ⟨h1, h2, h3, h4⟩ := registerVotes_spec calls vs
  refine ⟨h1, h2, h3, h4, ?_⟩
  intro voter message hin
  rcases registerVote_cases vs voter message with h | ⟨hnot, _⟩
  · exact h
  · exact absurd hin hnot

/-- C1, at a concrete run: of two votes of voter 2 only the first is queued, and
a vote of the recorded voter 1 changes nothing. -/
theorem registerVote_dedup_witness :
    (registerVotes bufferedPrepares [(2, prepareA), (2, prepareB), (1, prepareA)]).2.2
        = [(2, prepareA)] ∧
      bufferedPrepares.registerVote 1 prepareB = (bufferedPrepares, .returned) :=
  ⟨by decide,
   (registerVote_dedup bufferedPrepares
      [(2, prepareA), (2, prepareB), (1, prepareA)]).2.2.2.2 1 prepareB (by decide)⟩

/-! ## Abort -/

/-- C2. Abort is idempotent. For every view, `Abort` returns (it neither blocks
nor panics), makes no call, and leaves the view with the abort channel closed
and every other field as it was; on a view that is already aborted it changes
nothing; and `Abort` after `Abort` gives what one `Abort` gives. -/
theorem Abort_idempotent (v : View) :
    v.Abort = ⟨{ v with abortChan := .isClosed }, [], .returned⟩ ∧
    (v.abortChan = .isClosed → v.Abort = ⟨v, [], .returned⟩) ∧
    v.Abort.view.Abort = v.Abort := by
  cases v with
  | mk cs ld nb vp ps ph im pr p c np nc ab =>
    cases ab <;> simp [View.Abort, SignalChan.recvReady, SignalChan.close]

/-- C2, at a concrete view: `exampleView` is open, one `Abort` closes its abort
channel, and a second `Abort` on the aborted view changes nothing. -/
theorem Abort_idempotent_witness :
    exampleView.Abort.view.abortChan = .isClosed ∧
      exampleView.Abort.view.Abort = ⟨exampleView.Abort.view, [], .returned⟩ :=
  ⟨by decide,
   (Abort_idempotent exampleView.Abort.view).2.1 (by decide)⟩

/-! ## Routing of inbound messages -/

/-- The calls of `dispatch` are the calls handed to it, followed by warnings
only. -/
theorem dispatch_calls (v : View) (sender : Nat) (m : Message) (next : Bool)
    (calls : List Call) :
    ∃ rest : List Call, (v.dispatch sender m next calls).calls = calls ++ rest ∧
      ∀ c ∈ rest, c = Call.Warningf := by
  cases m with
  | prePrepare pp =>
    refine ⟨(v.handlePrePrepare sender pp).calls, by simp [View.dispatch, Message.GetPrePrepare], ?_⟩
    unfold View.handlePrePrepare
    cases pp.Proposal with
    | none => simp
    | some prop =>
      by_cases hs : sender = v.LeaderID <;> by_cases hc : v.proposals.canSend = true <;>
        simp [hs, hc]
  | prepare prp =>
    refine ⟨[], ?_, by simp⟩
    cases next <;>
      simp [View.dispatch, Message.GetPrePrepare, Message.GetPrepare,
        View.withPrepares, View.withNextPrepares]
  | commit cmt =>
    refine ⟨[], ?_, by simp⟩
    cases next <;>
      simp [View.dispatch, Message.GetPrePrepare, Message.GetPrepare, Message.GetCommit,
        View.withNextCommits]
  | other a b =>
    exact ⟨[], by simp [View.dispatch, Message.GetPrePrepare, Message.GetPrepare,
      Message.GetCommit], by simp⟩

/-- C3. Protocol-inconsistent messages cause no state change. A message whose
sequence is neither the current `ProposalSequence` nor `ProposalSequence + 1`
(the sum of the code, a `uint64` addition), and a message of another view
number from a sender other than `LeaderID`, make `processMsg` return with the
view unchanged in every field (the four vote sets, the proposals channel and
the abort channel among them) after one call, a logged warning: there is no
`Complain` and no `Broadcast`. -/
theorem processMsg_inconsistent_dropped (v : View) (sender : Nat) (m : Message)
    (h : (ProposalSequence m ≠ v.ProposalSequence ∧
            ProposalSequence m ≠ (v.ProposalSequence + 1) % uint64Mod) ∨
         (ViewNumber m ≠ v.Number ∧ sender ≠ v.LeaderID)) :
    v.processMsg sender m = ⟨v, [.Warningf], .returned⟩ := by
  unfold View.processMsg
  by_cases hseq : ProposalSequence m ≠ v.ProposalSequence ∧
      ProposalSequence m ≠ (v.ProposalSequence + 1) % uint64Mod
  · simp only [hseq, and_self, ne_eq, not_false_eq_true, if_true]
  · rcases h with h | ⟨hview, hsender⟩
    · exact absurd h hseq
    · simp only [hseq, if_false, hview, hsender, ne_eq, not_false_eq_true, if_true]

/-- C3, at concrete messages: a prepare seven sequences ahead and a prepare of
view 5 from node 2, which is not the leader, leave `bufferedView` unchanged. -/
theorem processMsg_inconsistent_dropped_witness :
    bufferedView.processMsg 1 prepareFarAhead = ⟨bufferedView, [.Warningf], .returned⟩ ∧
      bufferedView.processMsg 2 prepareOtherView = ⟨bufferedView, [.Warningf], .returned⟩ :=
  ⟨processMsg_inconsistent_dropped bufferedView 1 prepareFarAhead (Or.inl (by decide)),
   processMsg_inconsistent_dropped bufferedView 2 prepareOtherView (Or.inr (by decide))⟩

/-- C4, as stated, fails: node 1 is the leader of `exampleView` and sends a
prepare of view 5 while the view has number 0, but the prepare is for sequence
7 while the view is at sequence 0; `processMsg` drops it at the sequence check
and never calls `Complain`. -/
theorem processMsg_leader_far_ahead_no_complain :
    1 = exampleView.LeaderID ∧ ViewNumber prepareFarAhead ≠ exampleView.Number ∧
      Call.Complain ∉ (exampleView.processMsg 1 prepareFarAhead).calls := by
  decide

/-- C4, amended. For every message sent by `LeaderID` whose view number differs
from the view's `Number` and whose sequence is the current `ProposalSequence`
or `ProposalSequence + 1` (the sum of the code, a `uint64` addition),
`processMsg` calls `FailureDetector.Complain()`, exactly once. -/
theorem processMsg_leader_wrong_view_complains (v : View) (sender : Nat) (m : Message)
    (hleader : sender = v.LeaderID) (hview : ViewNumber m ≠ v.Number)
    (hseq : ProposalSequence m = v.ProposalSequence ∨
            ProposalSequence m = (v.ProposalSequence + 1) % uint64Mod) :
    (v.processMsg sender m).calls.count Call.Complain = 1 := by
  have hnot : ¬ (ProposalSequence m ≠ v.ProposalSequence ∧
      ProposalSequence m ≠ (v.ProposalSequence + 1) % uint64Mod) := by
    rintro ⟨h1, h2⟩
    rcases hseq with h | h
    · exact h1 h
    · exact h2 h
  unfold View.processMsg
  simp only [hnot, if_false, hview, ne_eq, not_false_eq_true, if_true, hleader, not_true_eq_false]
  obtain ⟨rest, hcalls, hrest⟩ := dispatch_calls v v.LeaderID m
    (decide (ProposalSequence m = (v.ProposalSequence + 1) % uint64Mod))
    [Call.Warningf, Call.Complain]
  rw [hcalls, List.count_append]
  have hzero : rest.count Call.Complain = 0 := by
    rw [List.count_eq_zero]
    intro hmem
    exact absurd (hrest _ hmem) (by decide)
  rw [hzero]
  decide

/-- C4 amended, at a concrete message: the leader of `exampleView` sends a
prepare of view 5 for the current sequence, and `Complain` is called once. -/
theorem processMsg_leader_wrong_view_complains_witness :
    (exampleView.processMsg 1 prepareOtherView).calls.count Call.Complain = 1 :=
  processMsg_leader_wrong_view_complains exampleView 1 prepareOtherView
    (by decide) (by decide) (Or.inl (by decide))

/-- C5, at the failing input: the leader (node 1) of a view with number 0 sends
a prepare of view 5 for the current sequence. After the complaint `processMsg`
goes on and registers the vote: on the view left by `setupVotes` the leader is
recorded in `prepares.voted` (and the call blocks on the nil `votes` channel),
and on the view with created `votes` channels the prepare of view 5 is queued
in `prepares.votes`. -/
theorem processMsg_registers_leader_vote_of_other_view :
    ViewNumber prepareOtherView = 5 ∧ exampleView.Number = 0 ∧ bufferedView.Number = 0 ∧
      (exampleView.processMsg 1 prepareOtherView).calls = [.Warningf, .Complain] ∧
      (exampleView.processMsg 1 prepareOtherView).view.prepares.voted = {1} ∧
      (exampleView.processMsg 1 prepareOtherView).status = .blocked ∧
      (bufferedView.processMsg 1 prepareOtherView).view.prepares.voted = {1} ∧
      (bufferedView.processMsg 1 prepareOtherView).view.prepares.queued
        = [prepareOtherView] ∧
      (bufferedView.processMsg 1 prepareOtherView).status = .returned := by
  decide

/-- C6. Vote routing by sequence. For a prepare of the view's `Number`,
`processMsg` makes no call on a collaborator and does to the view exactly what
`prepares.registerVote(sender, m)` does to `prepares` when the sequence is the
current `ProposalSequence`, and exactly what `nextPrepares.registerVote(sender,
m)` does to `nextPrepares` when the sequence is `ProposalSequence + 1` (the sum
of the code, a `uint64` addition, which is `ProposalSequence + 1` whenever
that is a `uint64`); every other field is unchanged. For a commit of the view's
`Number` with sequence `ProposalSequence + 1` it does exactly what
`nextCommits.registerVote(sender, m)` does to `nextCommits`. -/
theorem processMsg_routes_votes (v : View) (sender : Nat) :
    (∀ prp : Prepare, prp.View = v.Number → prp.Seq = v.ProposalSequence →
      v.processMsg sender (.prepare prp) =
        ⟨{ v with prepares := (v.prepares.registerVote sender (.prepare prp)).1 }, [],
          (v.prepares.registerVote sender (.prepare prp)).2⟩) ∧
    (∀ prp : Prepare, prp.View = v.Number →
      prp.Seq = (v.ProposalSequence + 1) % uint64Mod →
      v.processMsg sender (.prepare prp) =
        ⟨{ v with nextPrepares := (v.nextPrepares.registerVote sender (.prepare prp)).1 }, [],
          (v.nextPrepares.registerVote sender (.prepare prp)).2⟩) ∧
    (∀ cmt : Commit, cmt.View = v.Number →
      cmt.Seq = (v.ProposalSequence + 1) % uint64Mod →
      v.processMsg sender (.commit cmt) =
        ⟨{ v with nextCommits := (v.nextCommits.registerVote sender (.commit cmt)).1 }, [],
          (v.nextCommits.registerVote sender (.commit cmt)).2⟩) := by
  have hsucc : v.ProposalSequence ≠ (v.ProposalSequence + 1) % uint64Mod := by
    intro h
    have hlt : (v.ProposalSequence + 1) % uint64Mod < uint64Mod :=
      Nat.mod_lt _ (by decide)
    have hsmall : v.ProposalSequence + 1 < uint64Mod ∨ v.ProposalSequence + 1 = uint64Mod := by
      omega
    rcases hsmall with hs | hs
    · rw [Nat.mod_eq_of_lt hs] at h; omega
    · rw [hs, Nat.mod_self] at h; rw [h] at hs; exact absurd hs (by decide)
  refine ⟨?_, ?_, ?_⟩
  · intro prp hview hseq
    simp [View.processMsg, View.dispatch, ViewNumber, ProposalSequence, hview, hseq, hsucc,
      Message.GetPrePrepare, Message.GetPrepare, View.withPrepares]
  · intro prp hview hseq
    simp [View.processMsg, View.dispatch, ViewNumber, ProposalSequence, hview, hseq,
      Message.GetPrePrepare, Message.GetPrepare, View.withNextPrepares]
  · intro cmt hview hseq
    simp [View.processMsg, View.dispatch, ViewNumber, ProposalSequence, hview, hseq,
      Message.GetPrePrepare, Message.GetPrepare, Message.GetCommit, View.withNextCommits]

/-- C6, at concrete messages on `bufferedView` (view 0, sequence 0): a prepare
for sequence 0 is queued in `prepares` only, a prepare for sequence 1 in
`nextPrepares` only, and a commit for sequence 1 in `nextCommits`. -/
theorem processMsg_routes_votes_witness :
    ((bufferedView.processMsg 2 prepareA).view.prepares.queued = [prepareA] ∧
      (bufferedView.processMsg 2 prepareA).view.nextPrepares.queued = []) ∧
    ((bufferedView.processMsg 2 prepareNext).view.nextPrepares.queued = [prepareNext] ∧
      (bufferedView.processMsg 2 prepareNext).view.prepares.queued = []) ∧
    (bufferedView.processMsg 2 commitNext).view.nextCommits.queued = [commitNext] := by
  have h := processMsg_routes_votes bufferedView 2
  have h1 := h.1 { View := 0, Seq := 0, Digest := "a" } (by decide) (by decide)
  have h2 := h.2.1 { View := 0, Seq := 1, Digest := "a" } (by decide) (by decide)
  have h3 := h.2.2
    { View := 0, Seq := 1, Digest := "a", Signature := { Signer := 2, Value := [], Msg := [] } }
    (by decide) (by decide)
  refine ⟨?_, ?_, ?_⟩
  · show (bufferedView.processMsg 2 (.prepare { View := 0, Seq := 0, Digest := "a" })
        ).view.prepares.queued = _ ∧
      (bufferedView.processMsg 2 (.prepare { View := 0, Seq := 0, Digest := "a" })
        ).view.nextPrepares.queued = _
    rw [h1]; decide
  · show (bufferedView.processMsg 2 (.prepare { View := 0, Seq := 1, Digest := "a" })
        ).view.nextPrepares.queued = _ ∧
      (bufferedView.processMsg 2 (.prepare { View := 0, Seq := 1, Digest := "a" })
        ).view.prepares.queued = _
    rw [h2]; decide
  · show (bufferedView.processMsg 2 (.commit
        { View := 0, Seq := 1, Digest := "a",
          Signature := { Signer := 2, Value := [], Msg := [] } })).view.nextCommits.queued = _
    rw [h3]; decide

/-- C7, at the failing input: node 2 sends a commit of the view's number (0) for
the current sequence (0). `processMsg` leaves `commits` untouched and registers
the vote in `nextCommits`: on the view left by `setupVotes` node 2 is recorded
in `nextCommits.voted`, and on the view with created `votes` channels the
commit is queued in `nextCommits.votes` while `commits.votes` stays empty. -/
theorem processMsg_current_commit_lands_in_nextCommits :
    ViewNumber commitCurrent = exampleView.Number ∧
      ProposalSequence commitCurrent = exampleView.ProposalSequence ∧
      (exampleView.processMsg 2 commitCurrent).view.commits.voted = ∅ ∧
      (exampleView.processMsg 2 commitCurrent).view.nextCommits.voted = {2} ∧
      (bufferedView.processMsg 2 commitCurrent).view.commits.voted = ∅ ∧
      (bufferedView.processMsg 2 commitCurrent).view.commits.queued = [] ∧
      (bufferedView.processMsg 2 commitCurrent).view.nextCommits.voted = {2} ∧
      (bufferedView.processMsg 2 commitCurrent).view.nextCommits.queued = [commitCurrent] := by
  decide

/-! ## Pre-prepares -/

/-- C8. A pre-prepare from a node other than the leader, or without a proposal,
is rejected: `handlePrePrepare` returns with the view unchanged in every field,
the proposals channel among them, after logging one warning. -/
theorem handlePrePrepare_rejects (v : View) (sender : Nat) (pp : PrePrepare)
    (h : sender ≠ v.LeaderID ∨ pp.Proposal = none) :
    v.handlePrePrepare sender pp = ⟨v, [.Warningf], .returned⟩ := by
  unfold View.handlePrePrepare
  cases hp : pp.Proposal with
  | none => rfl
  | some prop =>
    rcases h with h | h
    · simp [h]
    · rw [hp] at h; exact absurd h (by simp)

/-- C8, at concrete pre-prepares: one from node 2, which is not the leader of
`exampleView`, and one from the leader without a proposal. -/
theorem handlePrePrepare_rejects_witness :
    exampleView.handlePrePrepare 2 { View := 0, Seq := 0, Proposal := some goodProposal }
        = ⟨exampleView, [.Warningf], .returned⟩ ∧
      exampleView.handlePrePrepare 1 { View := 0, Seq := 0, Proposal := none }
        = ⟨exampleView, [.Warningf], .returned⟩ :=
  ⟨handlePrePrepare_rejects exampleView 2 _ (Or.inl (by decide)),
   handlePrePrepare_rejects exampleView 1 _ (Or.inr rfl)⟩

/-- C9. The proposals channel holds at most one proposal. With a channel of
capacity 1 that holds a proposal, `handlePrePrepare` returns for every sender
and pre-prepare (it does not block) and leaves the view, and so the channel
with exactly that first proposal, unchanged. With a channel of capacity 1 that
is empty, a pre-prepare from the leader with a proposal returns and leaves in
the channel exactly one proposal, whose `Header`, `Payload`, `Metadata` and
`VerificationSequence` are those of the proposal of the pre-prepare. -/
theorem handlePrePrepare_capacity_one (v : View) (hcap : v.proposals.cap = 1) :
    (∀ (first : Proposal) (sender : Nat) (pp : PrePrepare),
      v.proposals.buf = [first] →
        (v.handlePrePrepare sender pp).status = .returned ∧
        (v.handlePrePrepare sender pp).view = v ∧
        (v.handlePrePrepare sender pp).view.proposals.buf = [first]) ∧
    (∀ (pp : PrePrepare) (prop : Proposal),
      v.proposals.buf = [] → pp.Proposal = some prop →
        (v.handlePrePrepare v.LeaderID pp).status = .returned ∧
        ∃ queued : Proposal,
          (v.handlePrePrepare v.LeaderID pp).view.proposals.buf = [queued] ∧
          queued.Header = prop.Header ∧ queued.Payload = prop.Payload ∧
          queued.Metadata = prop.Metadata ∧
          queued.VerificationSequence = prop.VerificationSequence) := by
  refine ⟨?_, ?_⟩
  · intro first sender pp hbuf
    have hfull : v.proposals.canSend = false := by
      simp [Chan.canSend, hbuf, hcap]
    unfold View.handlePrePrepare
    cases pp.Proposal with
    | none => simp [hbuf]
    | some prop =>
      by_cases hs : sender = v.LeaderID <;> simp [hs, hfull, hbuf]
  · intro pp prop hbuf hprop
    have hroom : v.proposals.canSend = true := by
      simp [Chan.canSend, hbuf, hcap]
    unfold View.handlePrePrepare
    simp [hprop, hroom, Chan.send, hbuf]

/-- C9, at concrete views: the leader's second pre-prepare leaves
`goodProposal` alone in the channel of `viewHoldingProposal`, and the leader's
pre-prepare puts `goodProposal` into the empty channel of `exampleView`. -/
theorem handlePrePrepare_capacity_one_witness :
    (viewHoldingProposal.handlePrePrepare 1
        { View := 0, Seq := 1, Proposal := some laterProposal }).view.proposals.buf
        = [goodProposal] ∧
      (exampleView.handlePrePrepare 1
        { View := 0, Seq := 0, Proposal := some goodProposal }).view.proposals.buf
        = [goodProposal] := by
  refine ⟨?_, ?_⟩
  · exact ((handlePrePrepare_capacity_one viewHoldingProposal (by decide)).1
      goodProposal 1 _ (by decide)).2.2
  · obtain ⟨_, queued, hq, hHeader, hPayload, hMetadata, hSeq⟩ :=
      (handlePrePrepare_capacity_one exampleView (by decide)).2
        { View := 0, Seq := 0, Proposal := some goodProposal } goodProposal
        (by decide) rfl
    rw [show exampleView.LeaderID = 1 from rfl] at hq
    rw [hq]
    cases queued
    simp_all

/-- C10. Bad proposal. When the proposal taken from the proposals channel is
rejected by `Verifier.VerifyProposal(proposal, PrevHeader)`, the calls of
`processPrePrepare` are a logged warning, then one `Complain`, then one
`SyncIfNeeded`, and no `Broadcast`; it returns with the abort channel closed,
the proposal taken off the channel and every other field unchanged. -/
theorem processPrePrepare_bad_proposal (v : View) (digest : Proposal → String)
    (proposalSequence : Nat) (proposal : Proposal) (rest : Chan Proposal) (err : String)
    (hrecv : v.proposals.recv = some (proposal, rest))
    (hbad : v.VerifyProposal proposal v.PrevHeader = some err) :
    v.processPrePrepare digest proposalSequence =
      ⟨{ v with proposals := rest, abortChan := .isClosed },
        [.Warningf, .Complain, .SyncIfNeeded], .returned⟩ := by
  unfold View.processPrePrepare
  simp only [hrecv, hbad]
  cases hab : v.abortChan <;>
    simp [View.Abort, SignalChan.recvReady, SignalChan.close, hab]

/-- C10, at a concrete view: `viewHoldingBadProposal` holds a proposal with an
empty payload, which its verifier rejects. -/
theorem processPrePrepare_bad_proposal_witness :
    (viewHoldingBadProposal.processPrePrepare exampleDigest 0).calls
        = [.Warningf, .Complain, .SyncIfNeeded] ∧
      (viewHoldingBadProposal.processPrePrepare exampleDigest 0).view.abortChan
        = .isClosed := by
  have h := processPrePrepare_bad_proposal viewHoldingBadProposal exampleDigest 0
    badProposal { cap := 1, buf := [] } "empty payload" (by decide) (by decide)
  rw [h]
  exact ⟨rfl, rfl⟩

/-- A phase with an empty body, run after a call, changes nothing of what the
call did. -/
theorem andThen_empty_phase (r : Outcome) (phase : View → Outcome)
    (hphase : ∀ v : View, phase v = ⟨v, [], .returned⟩) :
    r.andThen phase = r := by
  obtain ⟨view, calls, status⟩ := r
  cases status <;> simp [Outcome.andThen, hphase]

/-- The three phases after the pre-prepare are empty: a step is its
pre-prepare phase. -/
theorem doStep_eq_processPrePrepare (v : View) (digest : Proposal → String) :
    v.doStep digest = v.processPrePrepare digest v.ProposalSequence := by
  simp only [View.doStep]
  rw [andThen_empty_phase _ View.maybeDecide (fun _ => rfl),
    andThen_empty_phase _ View.processCommits (fun _ => rfl),
    andThen_empty_phase _ View.processPrepares (fun _ => rfl)]

/-- C11. Good proposal. When the proposal taken from the proposals channel is
accepted by `Verifier.VerifyProposal(proposal, PrevHeader)`, a step (`doStep`,
which hands the view's current `ProposalSequence` to `processPrePrepare`) makes
exactly one call, the broadcast of a prepare with `View` the view's `Number`,
`Seq` the view's current `ProposalSequence` and `Digest` the digest of the
proposal; there is no `Complain` and no `SyncIfNeeded`, and it returns with the
proposal taken off the channel and every other field, the abort channel among
them, unchanged. `processPrePrepare` itself does so with whatever sequence it
is given. -/
theorem processPrePrepare_good_proposal (v : View) (digest : Proposal → String)
    (proposal : Proposal) (rest : Chan Proposal)
    (hrecv : v.proposals.recv = some (proposal, rest))
    (hgood : v.VerifyProposal proposal v.PrevHeader = none) :
    v.doStep digest =
      ⟨{ v with proposals := rest },
        [.Broadcast (.prepare
          { View := v.Number, Seq := v.ProposalSequence, Digest := digest proposal })],
        .returned⟩ ∧
    ∀ proposalSequence : Nat,
      v.processPrePrepare digest proposalSequence =
        ⟨{ v with proposals := rest },
          [.Broadcast (.prepare
            { View := v.Number, Seq := proposalSequence, Digest := digest proposal })],
          .returned⟩ := by
  have hstep : ∀ proposalSequence : Nat,
      v.processPrePrepare digest proposalSequence =
        ⟨{ v with proposals := rest },
          [.Broadcast (.prepare
            { View := v.Number, Seq := proposalSequence, Digest := digest proposal })],
          .returned⟩ := by
    intro proposalSequence
    unfold View.processPrePrepare
    simp only [hrecv, hgood]
  exact ⟨by rw [doStep_eq_processPrePrepare, hstep], hstep⟩

/-- C11, at a concrete view: `viewHoldingProposal` (view 0, sequence 0) holds
`goodProposal`, which its verifier accepts; the step broadcasts one prepare for
view 0 and sequence 0 and leaves the abort channel open. -/
theorem processPrePrepare_good_proposal_witness :
    (viewHoldingProposal.doStep exampleDigest).calls =
        [.Broadcast (.prepare { View := 0, Seq := 0, Digest := "2" })] ∧
      (viewHoldingProposal.doStep exampleDigest).view.abortChan = .isOpen ∧
      (viewHoldingProposal.doStep exampleDigest).view.proposals.buf = [] := by
  have h := (processPrePrepare_good_proposal viewHoldingProposal exampleDigest
    goodProposal { cap := 1, buf := [] } (by decide) (by decide)).1
  rw [h]
  decide

/-! ## Broadcast of the consensus: every other node, never the node itself -/

/-- The calls of `BroadcastConsensus` and the occurrences of `SelfID` in the
node list add up to the length of the list. -/
theorem BroadcastConsensus_length {μ : Type} (SelfID : Nat) (nodes : List Nat) (m : μ) :
    (BroadcastConsensus SelfID nodes m).length + nodes.count SelfID = nodes.length := by
  induction nodes with
  | nil => rfl
  | cons node rest ih =>
    by_cases h : SelfID = node
    · subst h
      simp only [BroadcastConsensus, if_true, List.count_cons_self, List.length_cons]
      omega
    · have h2 : ¬ node = SelfID := fun e => h e.symm
      have hcount : (node :: rest).count SelfID = rest.count SelfID := by
        simp [List.count_cons, h2]
      simp only [BroadcastConsensus, h, if_false, List.length_cons, hcount]
      omega

/-- C12. `BroadcastConsensus` sends the message to every other node and never
to itself. For every node list, every `SelfID` and every message `m`, the calls
`SendConsensus(node, m)` are, in list order, one for each entry of the list
different from `SelfID`; no call has `node = SelfID` and every call carries
`m`; and when `SelfID` occurs once in a list of `n` nodes there are `n - 1`
calls. -/
theorem BroadcastConsensus_sends {μ : Type} (SelfID : Nat) (nodes : List Nat) (m : μ) :
    BroadcastConsensus SelfID nodes m =
      (nodes.filter (fun node => decide (node ≠ SelfID))).map (fun node => (node, m)) ∧
    (∀ send ∈ BroadcastConsensus SelfID nodes m, send.1 ≠ SelfID ∧ send.2 = m) ∧
    (nodes.count SelfID = 1 →
      (BroadcastConsensus SelfID nodes m).length = nodes.length - 1) := by
  have hfilter : BroadcastConsensus SelfID nodes m =
      (nodes.filter (fun node => decide (node ≠ SelfID))).map (fun node => (node, m)) := by
    induction nodes with
    | nil => rfl
    | cons node rest ih =>
      by_cases h : SelfID = node
      · subst h
        simp [BroadcastConsensus, ih]
      · have h2 : ¬ node = SelfID := fun e => h e.symm
        simp [BroadcastConsensus, h, h2, ih]
  refine ⟨hfilter, ?_, ?_⟩
  · intro send hsend
    rw [hfilter] at hsend
    simp only [List.mem_map, List.mem_filter] at hsend
    obtain ⟨node, ⟨_, hne⟩, rfl⟩ := hsend
    exact ⟨by simpa using hne, rfl⟩
  · intro hcount
    have hlen := BroadcastConsensus_length SelfID nodes m
    omega

/-- C12, at a concrete cluster: node 1 of the nodes 0, 1, 2, 3 sends to 0, 2 and
3, in this order, which are 4 - 1 calls. -/
theorem BroadcastConsensus_sends_witness :
    BroadcastConsensus 1 [0, 1, 2, 3] prepareA =
        [(0, prepareA), (2, prepareA), (3, prepareA)] ∧
      (BroadcastConsensus 1 [0, 1, 2, 3] prepareA).length = 4 - 1 :=
  ⟨by decide,
   (BroadcastConsensus_sends 1 [0, 1, 2, 3] prepareA).2.2 (by decide)⟩

/-! ## The loop of the view -/

/-- A step that returns has taken one proposal off the channel. -/
theorem doStep_returned_consumes (v : View) (digest : Proposal → String)
    (hret : (v.doStep digest).status = .returned) :
    (v.doStep digest).view.proposals.buf.length + 1 = v.proposals.buf.length := by
  rw [doStep_eq_processPrePrepare] at hret ⊢
  unfold View.processPrePrepare at hret ⊢
  cases hbuf : v.proposals.buf with
  | nil => simp [Chan.recv, hbuf] at hret
  | cons proposal rest =>
    cases hver : v.VerifyProposal proposal v.PrevHeader with
    | none => simp [Chan.recv, hbuf, hver]
    | some err =>
      cases hab : v.abortChan <;>
        simp [Chan.recv, hbuf, hver, View.Abort, SignalChan.recvReady, SignalChan.close, hab]

/-- The loop `Run` ends: since every step that returns consumes a proposal, one
round more than there are queued proposals is enough for `RunFor` to give a
result. -/
theorem RunFor_terminates (digest : Proposal → String) :
    ∀ (fuel : Nat) (v : View), v.proposals.buf.length < fuel →
      (View.RunFor digest fuel v).isSome = true := by
  intro fuel
  induction fuel with
  | zero => intro v h; exact absurd h (Nat.not_lt_zero _)
  | succ fuel ih =>
    intro v h
    unfold View.RunFor
    by_cases hab : v.abortChan.recvReady = true
    · simp [hab]
    · simp only [hab]
      cases hst : (v.doStep digest).status with
      | returned =>
        have hlen := doStep_returned_consumes v digest hst
        have hsome := ih (v.doStep digest).view (by omega)
        simp [hsome]
      | blocked => simp
      | panicked => simp

/-- C13. Aborted views do not call Decide. For every view whose abort channel is
closed, `Run` returns in its first round, whatever number of rounds it is
allowed: the view is unchanged (no proposal is consumed, no step is executed)
and no call is made on a collaborator, so there is no `Broadcast`, no `Decide`
and no `Complain`. -/
theorem Run_aborted_returns (v : View) (digest : Proposal → String) (fuel : Nat)
    (haborted : v.abortChan = .isClosed) :
    View.RunFor digest (fuel + 1) v = some ⟨v, [], .returned⟩ := by
  simp [View.RunFor, haborted, SignalChan.recvReady]

/-- C13, at a concrete view: `abortedViewHoldingProposal` is aborted while a
proposal waits; `Run` returns and leaves the proposal in the channel. -/
theorem Run_aborted_returns_witness :
    View.RunFor exampleDigest 1 abortedViewHoldingProposal =
      some ⟨abortedViewHoldingProposal, [], .returned⟩ :=
  Run_aborted_returns abortedViewHoldingProposal exampleDigest 0 (by decide)

/-! ## The inbound queue -/

/-- C14, as stated, fails: the inbound queue of `viewWithFullQueue` is full (two
messages, capacity 2) and the view is not aborted; `HandleMessage` can only
block, and the queue still holds its two messages, the oldest one included,
and not the new one. -/
theorem HandleMessage_full_queue_keeps_oldest :
    viewWithFullQueue.incMsgs.buf.length = viewWithFullQueue.incMsgs.cap ∧
      viewWithFullQueue.abortChan = .isOpen ∧
      (viewWithFullQueue.HandleMessage 1 prepareNext).map
          (fun o => (o.status, o.view.incMsgs.buf)) =
        [(.blocked, [{ Message := prepareA, sender := 2 },
                     { Message := prepareB, sender := 3 }])] := by
  decide

/-- C14, amended. When the inbound queue is full, `HandleMessage` removes
nothing from it and adds nothing to it: while the view is not aborted the call
can only block, with the view unchanged, and once the view is aborted it can
only return, with the view unchanged. -/
theorem HandleMessage_full_queue (v : View) (sender : Nat) (m : Message)
    (hfull : v.incMsgs.cap ≤ v.incMsgs.buf.length) :
    (v.abortChan = .isOpen → v.HandleMessage sender m = [⟨v, [], .blocked⟩]) ∧
    (v.abortChan = .isClosed → v.HandleMessage sender m = [⟨v, [], .returned⟩]) := by
  have hsend : v.incMsgs.canSend = false := by
    simp [Chan.canSend, hfull]
  constructor <;> intro hab <;>
    simp [View.HandleMessage, hsend, hab, SignalChan.recvReady]

/-- C14 amended, at a concrete view: with its full queue `viewWithFullQueue`
blocks the call, view unchanged. -/
theorem HandleMessage_full_queue_witness :
    viewWithFullQueue.HandleMessage 1 prepareNext = [⟨viewWithFullQueue, [], .blocked⟩] :=
  (HandleMessage_full_queue viewWithFullQueue 1 prepareNext (by decide)).1 (by decide)

/-! ## The sequence of the prepare -/

/-- C15, at the failing input: the leader (node 1) of `exampleView`, which is in
view 0 at sequence 0, sends a pre-prepare of view 0 for sequence 1.
`processMsg` hands it to `handlePrePrepare` without regard to the sequence it
is for: its proposal is queued in the one proposals channel, exactly as the
proposal of a pre-prepare for the current sequence 0 is, while a prepare for
sequence 1 is kept apart in `nextPrepares`. The next step consumes and verifies
the proposal, and the prepare that is broadcast carries sequence 0, not the
sequence 1 of the pre-prepare. -/
theorem prepare_carries_current_sequence_not_prePrepare_sequence :
    prePrepareNext.Seq = 1 ∧ exampleView.ProposalSequence = 0 ∧
      (exampleView.processMsg 1 (.prePrepare prePrepareNext)).view.proposals.buf
        = [goodProposal] ∧
      (exampleView.processMsg 1 (.prePrepare prePrepareNext)).view.proposals
        = (exampleView.processMsg 1 (.prePrepare prePrepareCurrent)).view.proposals ∧
      ((bufferedView.processMsg 2 prepareNext).view.nextPrepares.queued = [prepareNext] ∧
        (bufferedView.processMsg 2 prepareNext).view.prepares.queued = []) ∧
      ((exampleView.processMsg 1 (.prePrepare prePrepareNext)).view.doStep
          exampleDigest).calls
        = [.Broadcast (.prepare { View := 0, Seq := 0, Digest := "2" })] := by
  decide

/-! ## The wait for a proposal -/

/-- With an empty proposals channel a step parks the goroutine on the receive,
with the view unchanged and no call made, whatever the state of the abort
channel. -/
theorem doStep_blocks_on_empty_channel (v : View) (digest : Proposal → String)
    (hempty : v.proposals.buf = []) :
    v.doStep digest = ⟨v, [], .blocked⟩ := by
  rw [doStep_eq_processPrePrepare]
  simp [View.processPrePrepare, Chan.recv, hempty]

/-- C16, at the failing input: `abortedView` has its abort channel closed and
its proposals channel empty; the step, and its wait in `processPrePrepare`,
block on the receive instead of returning. -/
theorem doStep_aborted_still_waits :
    abortedView.abortChan = .isClosed ∧ abortedView.proposals.buf = [] ∧
      (abortedView.doStep exampleDigest).status = .blocked ∧
      (abortedView.processPrePrepare exampleDigest abortedView.ProposalSequence).status
        = .blocked := by
  decide

/-! ## The vote sets of a view -/

/-- The vote sets installed by `setupVotes` have a nil `votes` channel: a valid
vote of a voter is recorded in `voted` and the call then blocks on the send,
with nothing queued. -/
theorem setupVotes_registerVote_blocks (v : View) (voter : Nat) :
    (∀ message : Message, acceptPrepares message = true →
      (v.setupVotes.prepares.registerVote voter message).2 = .blocked ∧
      (v.setupVotes.prepares.registerVote voter message).1.queued = [] ∧
      (v.setupVotes.nextPrepares.registerVote voter message).2 = .blocked ∧
      (v.setupVotes.nextPrepares.registerVote voter message).1.queued = []) ∧
    (∀ message : Message, acceptCommits message = true →
      (v.setupVotes.commits.registerVote voter message).2 = .blocked ∧
      (v.setupVotes.commits.registerVote voter message).1.queued = [] ∧
      (v.setupVotes.nextCommits.registerVote voter message).2 = .blocked ∧
      (v.setupVotes.nextCommits.registerVote voter message).1.queued = []) := by
  constructor <;> intro message hvalid <;>
    simp [View.setupVotes, voteSet.new, voteSet.clear, voteSet.registerVote,
      voteSet.queued, hvalid]

/-- C17, at the failing input: on the view left by `setupVotes`, node 2, which
has not voted, sends a prepare that `prepares` and `nextPrepares` accept and a
commit that `commits` and `nextCommits` accept. In each of the four vote sets
`registerVote` records the voter and then blocks on the nil `votes` channel;
the message is not in the votes buffer. -/
theorem setupVotes_vote_sets_have_no_buffer :
    exampleView.prepares.validVote prepareA = true ∧
      exampleView.commits.validVote commitCurrent = true ∧
      (2 ∉ exampleView.prepares.voted ∧ 2 ∉ exampleView.nextPrepares.voted ∧
        2 ∉ exampleView.commits.voted ∧ 2 ∉ exampleView.nextCommits.voted) ∧
      ((exampleView.prepares.registerVote 2 prepareA).2 = .blocked ∧
        (exampleView.prepares.registerVote 2 prepareA).1.queued = [] ∧
        (exampleView.prepares.registerVote 2 prepareA).1.voted = {2}) ∧
      ((exampleView.nextPrepares.registerVote 2 prepareA).2 = .blocked ∧
        (exampleView.nextPrepares.registerVote 2 prepareA).1.queued = []) ∧
      ((exampleView.commits.registerVote 2 commitCurrent).2 = .blocked ∧
        (exampleView.commits.registerVote 2 commitCurrent).1.queued = []) ∧
      ((exampleView.nextCommits.registerVote 2 commitCurrent).2 = .blocked ∧
        (exampleView.nextCommits.registerVote 2 commitCurrent).1.queued = []) := by
  decide

/-! ## Clearing a vote set -/

/-- The drain loop ends with nothing queued. -/
theorem drain_eq_nil {α : Type} (queued : List α) : drain queued = [] := by
  induction queued with
  | nil => rfl
  | cons _ rest ih => simpa [drain] using ih

/-- C18. `clear` resets a vote set. For every vote set, `clear` (a total
function: the drain loop ends) leaves the votes buffer empty and the `voted`
map empty and keeps `validVote` and the channel's capacity. After `clear` a
vote that `validVote` accepts is not rejected as a double vote, whoever the
voter: the voter is recorded as the only one, and when the set has a `votes`
channel with room the call returns with the message as the only one queued. A
message that `validVote` rejects is not recorded, before or after `clear`:
`registerVote` returns the set unchanged. -/
theorem clear_resets (vs : voteSet) :
    vs.clear.queued = [] ∧ vs.clear.voted = ∅ ∧ vs.clear.validVote = vs.validVote ∧
    (∀ (voter : Nat) (message : Message), vs.validVote message = true →
      (vs.clear.registerVote voter message).1.voted = {voter} ∧
      ∀ c : Chan Message, vs.votes = some c → 0 < c.cap →
        vs.clear.registerVote voter message =
          ({ validVote := vs.validVote, voted := {voter},
             votes := some { cap := c.cap, buf := [message] } }, .returned)) ∧
    (∀ (voter : Nat) (message : Message), vs.validVote message = false →
      vs.registerVote voter message = (vs, .returned) ∧
      vs.clear.registerVote voter message = (vs.clear, .returned)) := by
  refine ⟨?_, rfl, rfl, ?_, ?_⟩
  · cases hv : vs.votes <;> simp [voteSet.clear, voteSet.queued, hv, drain_eq_nil]
  · intro voter message hvalid
    refine ⟨?_, ?_⟩
    · cases hv : vs.votes with
      | none => simp [voteSet.clear, voteSet.registerVote, hvalid, hv]
      | some c =>
        by_cases hc : 0 < c.cap <;>
          simp [voteSet.clear, voteSet.registerVote, hvalid, hv, drain_eq_nil,
            Chan.canSend, hc]
    · intro c hv hc
      simp [voteSet.clear, voteSet.registerVote, hvalid, hv, drain_eq_nil,
        Chan.canSend, Chan.send, hc]
  · intro voter message hinvalid
    constructor <;> simp [voteSet.clear, voteSet.registerVote, hinvalid]

/-- C18, at a concrete vote set: `usedPrepares` has recorded voters 1 and 2 and
holds two votes; after `clear` a new vote of voter 1 is recorded and queued,
and a commit, which the set rejects, changes nothing. -/
theorem clear_resets_witness :
    usedPrepares.clear.registerVote 1 prepareB =
        ({ validVote := acceptPrepares, voted := {1},
           votes := some { cap := 4, buf := [prepareB] } }, .returned) ∧
      usedPrepares.clear.registerVote 1 commitCurrent = (usedPrepares.clear, .returned) :=
  ⟨((clear_resets usedPrepares).2.2.2.1 1 prepareB (by decide)).2
      { cap := 4, buf := [prepareA, prepareB] } rfl (by decide),
   ((clear_resets usedPrepares).2.2.2.2 1 commitCurrent (by decide)).2⟩

end SmartBFT
